import Mathlib

/-!
Verification development for the one-to-one chat delivery service.

The development is a shallow embedding of the message dispatch pipeline:
the message store operations, the in-process connection registry, the
ingress (send) path with its compensating transaction, the delivery
acknowledgment path with rollback, the queue consumer dispatch, and the
payload validation of the gateway.

Modelling conventions:
- Database documents become Lean structures; the store is a list of rows
  in insertion order. A mongoose updateOne or deleteOne call touches the
  first matching row only, and is a no-op when no row matches.
- JavaScript Map objects become association lists with lookup, set, and
  delete mirroring Map.get, Map.set, Map.delete.
- Timestamps are modelled as integer epoch instants; ISO string
  formatting of a timestamp is not modelled.
- Fallible external operations (queue publish, cache calls) are given an
  explicit success flag; a false flag makes the call raise, which the
  embedding propagates as Except.error exactly where the source catches
  or rethrows. Exceptions do not roll back already-applied state.
-/

/-- Lookup in an association list, mirroring JavaScript Map.get. -/
def amGet {α : Type} (k : String) : List (String × α) → Option α
  | [] => none
  | p :: ps => if p.1 = k then some p.2 else amGet k ps

/-- Removal of a key from an association list, mirroring Map.delete. -/
def amDelete {α : Type} (k : String) : List (String × α) → List (String × α)
  | [] => []
  | p :: ps => if p.1 = k then amDelete k ps else p :: amDelete k ps

/-- Insertion or replacement of a key binding, mirroring Map.set. -/
def amSet {α : Type} (k : String) (v : α) (l : List (String × α)) :
    List (String × α) :=
  amDelete k l ++ [(k, v)]

theorem amGet_amDelete_self {α : Type} (k : String) (l : List (String × α)) :
    amGet k (amDelete k l) = none := by
  induction l with
  | nil => rfl
  | cons p ps ih =>
    by_cases h : p.1 = k
    · simpa [amDelete, h] using ih
    · simp [amDelete, amGet, h, ih]

theorem amGet_amDelete_ne {α : Type} {k k' : String} (h : k ≠ k')
    (l : List (String × α)) : amGet k (amDelete k' l) = amGet k l := by
  have hkk : k' ≠ k := Ne.symm h
  induction l with
  | nil => rfl
  | cons p ps ih =>
    by_cases hp : p.1 = k'
    · simp [amDelete, amGet, hp, hkk, ih]
    · by_cases hk : p.1 = k
      · simp [amDelete, amGet, hp, hk, h]
      · simp [amDelete, amGet, hp, hk, ih]

theorem amGet_append {α : Type} (k : String) (l₁ l₂ : List (String × α)) :
    amGet k (l₁ ++ l₂) =
      match amGet k l₁ with
      | some v => some v
      | none => amGet k l₂ := by
  induction l₁ with
  | nil => rfl
  | cons p ps ih =>
    by_cases hp : p.1 = k
    · simp [amGet, hp]
    · simp [amGet, hp, ih]

theorem amGet_amSet_self {α : Type} (k : String) (v : α)
    (l : List (String × α)) : amGet k (amSet k v l) = some v := by
  unfold amSet
  rw [amGet_append, amGet_amDelete_self k l]
  simp [amGet]

theorem amGet_amSet_ne {α : Type} {k k' : String} (h : k ≠ k') (v : α)
    (l : List (String × α)) : amGet k (amSet k' v l) = amGet k l := by
  have hkk : k' ≠ k := Ne.symm h
  unfold amSet
  rw [amGet_append, amGet_amDelete_ne h l]
  cases hg : amGet k l with
  | some v' => simp
  | none => simp [amGet, hkk]

theorem keys_amDelete_sublist {α : Type} (k : String) (l : List (String × α)) :
    ((amDelete k l).map Prod.fst).Sublist (l.map Prod.fst) := by
  induction l with
  | nil => simp [amDelete]
  | cons p ps ih =>
    by_cases hp : p.1 = k
    · simp only [amDelete, hp, if_pos rfl, List.map_cons]
      exact ih.trans (List.sublist_cons_self _ _)
    · simp only [amDelete, hp, if_neg hp, List.map_cons]
      exact ih.cons₂ _

theorem not_mem_keys_amDelete {α : Type} (k : String)
    (l : List (String × α)) : k ∉ (amDelete k l).map Prod.fst := by
  induction l with
  | nil => simp [amDelete]
  | cons p ps ih =>
    by_cases hp : p.1 = k
    · simpa [amDelete, hp] using ih
    · simp only [amDelete, if_neg hp, List.map_cons, List.mem_cons]
      rintro (hc | hc)
      · exact hp hc.symm
      · exact ih hc

theorem keys_nodup_amSet {α : Type} (k : String) (v : α)
    {l : List (String × α)} (h : (l.map Prod.fst).Nodup) :
    ((amSet k v l).map Prod.fst).Nodup := by
  unfold amSet
  rw [List.map_append]
  simp only [List.map_cons, List.map_nil]
  apply List.Nodup.append
  · exact (keys_amDelete_sublist k l).nodup h
  · exact List.nodup_singleton k
  · intro a ha hb
    have hak : a = k := List.mem_singleton.mp hb
    rw [hak] at ha
    exact not_mem_keys_amDelete k l ha

theorem keys_nodup_amDelete {α : Type} (k : String)
    {l : List (String × α)} (h : (l.map Prod.fst).Nodup) :
    ((amDelete k l).map Prod.fst).Nodup :=
  (keys_amDelete_sublist k l).nodup h

/-- A persisted message document, mirroring the Message schema: the
deliveredAt and readAt props default to null, undelivered defaults to
true. -/
structure MessageRow where
  messageId : String
  senderId : String
  receiverId : String
  content : String
  timestamp : Int
  undelivered : Bool
  deliveredAt : Option Int
  readAt : Option Int
deriving DecidableEq

/-- Row-level invariant claimed by the spec: undelivered is true exactly
when deliveredAt is absent. -/
def rowInv (r : MessageRow) : Prop :=
  r.undelivered = true ↔ r.deliveredAt = none

instance (r : MessageRow) : Decidable (rowInv r) := by
  unfold rowInv; infer_instance

/-- Update of the first row matching a predicate, mirroring mongoose
updateOne: at most one document is modified, and a miss is a no-op. -/
def updateFirst (p : MessageRow → Bool) (f : MessageRow → MessageRow) :
    List MessageRow → List MessageRow
  | [] => []
  | r :: rs => if p r then f r :: rs else r :: updateFirst p f rs

/-- Deletion of the first row matching a predicate, mirroring mongoose
deleteOne. -/
def deleteFirst (p : MessageRow → Bool) : List MessageRow → List MessageRow
  | [] => []
  | r :: rs => if p r then rs else r :: deleteFirst p rs

namespace MessagesService

/-- Creation of a message document, mirroring MessagesService.createMessage:
the new row carries the generated messageId, the given fields, undelivered
true, and schema defaults null for deliveredAt and readAt. The generated
uuid is passed in as the newMid argument. -/
def createMessage (senderId receiverId content : String) (timestamp : Int)
    (newMid : String) (store : List MessageRow) :
    MessageRow × List MessageRow :=
  let row : MessageRow :=
    { messageId := newMid, senderId := senderId, receiverId := receiverId,
      content := content, timestamp := timestamp, undelivered := true,
      deliveredAt := none, readAt := none }
  (row, store ++ [row])

/-- Mirror of MessagesService.markAsDelivered: updateOne on messageId
setting undelivered false and deliveredAt to the current instant. -/
def markAsDelivered (messageId : String) (now : Int)
    (store : List MessageRow) : List MessageRow :=
  updateFirst (fun r => r.messageId == messageId)
    (fun r => { r with undelivered := false, deliveredAt := some now }) store

/-- Mirror of MessagesService.markAsUndelivered: updateOne on messageId
unsetting deliveredAt and setting undelivered true. -/
def markAsUndelivered (messageId : String)
    (store : List MessageRow) : List MessageRow :=
  updateFirst (fun r => r.messageId == messageId)
    (fun r => { r with undelivered := true, deliveredAt := none }) store

/-- Mirror of MessagesService.deleteByMessageId: deleteOne on messageId. -/
def deleteByMessageId (messageId : String)
    (store : List MessageRow) : List MessageRow :=
  deleteFirst (fun r => r.messageId == messageId) store

end MessagesService

/-- In-process connection registry holding the two JavaScript Maps of the
ConnectionManager: userId to socketId and socketId to userId. -/
structure ConnectionManager where
  userSocketMap : List (String × String)
  socketUserMap : List (String × String)
deriving DecidableEq

namespace ConnectionManager

/-- Registry with no connections. -/
def empty : ConnectionManager := { userSocketMap := [], socketUserMap := [] }

/-- Mirror of ConnectionManager.addConnection: when the user already has a
socket, that old socket is deleted from the socket-to-user map; then both
maps are set with the new binding. -/
def addConnection (userId socketId : String) (cm : ConnectionManager) :
    ConnectionManager :=
  let cm1 :=
    match amGet userId cm.userSocketMap with
    | some existingSocketId =>
        { cm with socketUserMap := amDelete existingSocketId cm.socketUserMap }
    | none => cm
  { userSocketMap := amSet userId socketId cm1.userSocketMap,
    socketUserMap := amSet socketId userId cm1.socketUserMap }

/-- Mirror of ConnectionManager.removeConnection: when the user has a
socket, both directions are deleted; otherwise the call is a no-op. -/
def removeConnection (userId : String) (cm : ConnectionManager) :
    ConnectionManager :=
  match amGet userId cm.userSocketMap with
  | some socketId =>
      { userSocketMap := amDelete userId cm.userSocketMap,
        socketUserMap := amDelete socketId cm.socketUserMap }
  | none => cm

/-- Mirror of ConnectionManager.getSocketId. -/
def getSocketId (userId : String) (cm : ConnectionManager) : Option String :=
  amGet userId cm.userSocketMap

/-- Mirror of ConnectionManager.getUserId. -/
def getUserId (socketId : String) (cm : ConnectionManager) : Option String :=
  amGet socketId cm.socketUserMap

/-- Mirror of ConnectionManager.clearAll. -/
def clearAll (_cm : ConnectionManager) : ConnectionManager := empty

end ConnectionManager

/-- One registry operation, for reasoning about operation sequences. -/
inductive RegOp where
  | add (userId socketId : String)
  | remove (userId : String)
  | clear
deriving DecidableEq

/-- Application of one registry operation. -/
def applyRegOp (cm : ConnectionManager) : RegOp → ConnectionManager
  | RegOp.add u s => ConnectionManager.addConnection u s cm
  | RegOp.remove u => ConnectionManager.removeConnection u cm
  | RegOp.clear => ConnectionManager.clearAll cm

/-- Execution of a sequence of registry operations from the empty registry. -/
def runRegOps (ops : List RegOp) : ConnectionManager :=
  ops.foldl applyRegOp ConnectionManager.empty

/-- Socket-freshness of a single operation against the current state: an
add may not reuse a socketId currently bound to a different user. Live
socket ids are unique, so the gateway only issues fresh ones. -/
def regOpGood (cm : ConnectionManager) : RegOp → Bool
  | RegOp.add u s =>
      match amGet s cm.socketUserMap with
      | none => true
      | some u' => u' == u
  | _ => true

/-- Socket-freshness discipline of a whole operation sequence. -/
def goodRegOpsFrom (cm : ConnectionManager) : List RegOp → Bool
  | [] => true
  | op :: rest => regOpGood cm op && goodRegOpsFrom (applyRegOp cm op) rest

/-- Two-way inverse invariant of the registry maps. -/
def registryInv (cm : ConnectionManager) : Prop :=
  (∀ u s, amGet u cm.userSocketMap = some s →
    amGet s cm.socketUserMap = some u) ∧
  (∀ s u, amGet s cm.socketUserMap = some u →
    amGet u cm.userSocketMap = some s)

/-- Payload published to the queue by the ingress path; the instant is
kept as an integer rather than its ISO rendering. -/
structure QueuePayload where
  messageId : String
  senderId : String
  receiverId : String
  content : String
  timestamp : Int
deriving DecidableEq

/-- State touched by the ingress path: the message store and the queue of
published payloads. -/
structure SendState where
  store : List MessageRow
  queue : List QueuePayload
deriving DecidableEq

namespace CacheService

/-- Mirror of CacheService.addToInbox: an rpush append of the messageId
onto the list at the key of the user. The per-user redis lists are
modelled as one list of user-messageId pairs in push order. -/
def addToInbox (userId messageId : String)
    (inbox : List (String × String)) : List (String × String) :=
  inbox ++ [(userId, messageId)]

/-- Mirror of CacheService.removeFromInbox: an lrem with count one,
removing the first occurrence of the messageId in the list of the user. -/
def removeFromInbox (userId messageId : String) :
    List (String × String) → List (String × String)
  | [] => []
  | p :: ps =>
      if p.1 = userId ∧ p.2 = messageId then ps
      else p :: removeFromInbox userId messageId ps

end CacheService

namespace ChatService

/-- Mirror of ChatService.sendMessage with its compensating transaction.
Step 1 creates the store row, step 2 publishes to the queue; when the
publish raises, the created row is deleted again (best effort: a failing
delete is only logged) and the error is rethrown. The createOk, publishOk
and deleteOk flags inject failures of the respective external calls. -/
def sendMessage (senderId receiverId content : String) (timestamp : Int)
    (newMid : String) (createOk publishOk deleteOk : Bool) (st : SendState) :
    Except String String × SendState :=
  if createOk = false then
    (Except.error "create failed", st)
  else
    let created := MessagesService.createMessage senderId receiverId content
      timestamp newMid st.store
    let st1 : SendState := { st with store := created.2 }
    if publishOk then
      let payload : QueuePayload :=
        { messageId := created.1.messageId, senderId := senderId,
          receiverId := receiverId, content := content,
          timestamp := timestamp }
      (Except.ok created.1.messageId, { st1 with queue := st1.queue ++ [payload] })
    else
      let st2 : SendState :=
        if deleteOk then
          { st1 with store := MessagesService.deleteByMessageId created.1.messageId st1.store }
        else st1
      (Except.error "publish failed", st2)

/-- State touched by the delivery acknowledgment path: the message store
and the inbox cache. -/
structure AckState where
  store : List MessageRow
  inbox : List (String × String)
deriving DecidableEq

/-- Mirror of ChatService.markMessageAsDelivered with its compensating
transaction. Step 1 marks the row delivered, step 2 removes the inbox
entry; when the removal raises after a successful step 1, the row is
reverted to undelivered (best effort) and the error is rethrown. The
markOk, removeOk and rollbackOk flags inject failures of the respective
external calls. -/
def markMessageAsDelivered (userId messageId : String) (now : Int)
    (markOk removeOk rollbackOk : Bool) (st : AckState) :
    Except String Unit × AckState :=
  if markOk = false then
    (Except.error "mark failed", st)
  else
    let st1 : AckState :=
      { st with store := MessagesService.markAsDelivered messageId now st.store }
    if removeOk then
      (Except.ok (),
        { st1 with inbox := CacheService.removeFromInbox userId messageId st1.inbox })
    else
      let st2 : AckState :=
        if rollbackOk then
          { st1 with store := MessagesService.markAsUndelivered messageId st1.store }
        else st1
      (Except.error "remove failed", st2)

end ChatService

/-- Inbound send payload after transport decoding, mirroring
SendMessageDto. -/
structure SendMessageDto where
  receiver_id : String
  content : String
  message_id_by_client : Option Int
  timestamp : Int
deriving DecidableEq

/-- Mirror of the class-validator rules on the content field: IsNotEmpty
and MaxLength 1000. -/
def validContent (content : String) : Bool :=
  content ≠ "" && content.length ≤ 1000

/-- Mirror of the class-validator rules on SendMessageDto: receiver_id
IsNotEmpty, content IsNotEmpty with MaxLength 1000; message_id_by_client
is optional and timestamp is a required number, both already enforced by
the field types of the embedding. -/
def validSendMessageDto (d : SendMessageDto) : Bool :=
  d.receiver_id ≠ "" && validContent d.content

/-- Events the gateway emits back to a socket, as far as the claims need
them. -/
inductive EmitEvent where
  | messageReceived (messageId : String) (messageIdByClient : Option Int)
  | errorEvent
deriving DecidableEq

namespace ChatGateway

/-- Mirror of ChatGateway.handleSendMessage, after the validation pipe has
accepted the payload: an unauthenticated socket (no bound user) logs and
returns without emitting; otherwise the send path runs, answering
message_received on success and an error event on failure. -/
def handleSendMessage (cm : ConnectionManager) (socketId : String)
    (d : SendMessageDto) (newMid : String) (createOk publishOk deleteOk : Bool)
    (st : SendState) : List EmitEvent × SendState :=
  match ConnectionManager.getUserId socketId cm with
  | none => ([], st)
  | some senderId =>
      match ChatService.sendMessage senderId d.receiver_id d.content
        d.timestamp newMid createOk publishOk deleteOk st with
      | (Except.ok mid, st') =>
          ([EmitEvent.messageReceived mid d.message_id_by_client], st')
      | (Except.error _, st') => ([EmitEvent.errorEvent], st')

/-- The full send_message event pipeline: the validation pipe runs before
the handler and rejects an invalid payload with a validation error before
any state is touched. -/
def handleSendMessageEvent (cm : ConnectionManager) (socketId : String)
    (d : SendMessageDto) (newMid : String) (createOk publishOk deleteOk : Bool)
    (st : SendState) : Except Unit (List EmitEvent) × SendState :=
  if validSendMessageDto d then
    let res := handleSendMessage cm socketId d newMid createOk publishOk deleteOk st
    (Except.ok res.1, res.2)
  else
    (Except.error (), st)

/-- Mirror of ChatGateway.sendMessageToUser, reduced to its returned
outcome: true exactly when the receiver has a local socket binding (the
transport emit itself is not modelled). -/
def sendMessageToUser (cm : ConnectionManager) (receiverId : String) : Bool :=
  (ConnectionManager.getSocketId receiverId cm).isSome

end ChatGateway

/-- State touched by the queue consumer: the inbox cache and the
short-horizon message cache. -/
structure DispatcherState where
  inbox : List (String × String)
  msgCache : List (String × QueuePayload)
deriving DecidableEq

namespace QueueConsumer

/-- Mirror of QueueConsumer.addToOfflineInbox: append the messageId to the
inbox of the receiver and cache the message data. -/
def addToOfflineInbox (receiverId messageId : String) (p : QueuePayload)
    (st : DispatcherState) : DispatcherState :=
  { inbox := CacheService.addToInbox receiverId messageId st.inbox,
    msgCache := amSet messageId p st.msgCache }

/-- Mirror of QueueConsumer.handleMessage: read the cached presence flag;
when it reads online, attempt a live emit through the gateway and fall
back to the offline deposit when no local socket binding exists; when it
reads offline, deposit directly. The isOnline argument is the value the
presence cache returned. -/
def handleMessage (isOnline : Bool) (cm : ConnectionManager)
    (p : QueuePayload) (st : DispatcherState) :
    Except String DispatcherState :=
  if isOnline then
    if ChatGateway.sendMessageToUser cm p.receiverId then Except.ok st
    else Except.ok (addToOfflineInbox p.receiverId p.messageId p st)
  else Except.ok (addToOfflineInbox p.receiverId p.messageId p st)

end QueueConsumer

/-- Mirror of the manual acknowledgment in QueueService.consume: the queue
item is acked exactly when the handler completed without raising;
otherwise it is nacked with requeue. -/
def consumerAck (r : Except String DispatcherState) : Bool :=
  match r with
  | Except.ok _ => true
  | Except.error _ => false

/-- Ordering used by the history query: descending by timestamp. -/
def histRel (x y : MessageRow) : Prop := y.timestamp ≤ x.timestamp

instance : DecidableRel histRel := fun x y =>
  inferInstanceAs (Decidable (y.timestamp ≤ x.timestamp))

instance : IsTotal MessageRow histRel :=
  ⟨fun x y => Int.le_total y.timestamp x.timestamp⟩

instance : IsTrans MessageRow histRel :=
  ⟨fun _ _ _ h1 h2 => le_trans h2 h1⟩

/-- Filter of the history query: messages exchanged between the two users,
in either direction. -/
def chatBetween (userId chatParticipantId : String) (r : MessageRow) : Bool :=
  (r.senderId == userId && r.receiverId == chatParticipantId) ||
  (r.senderId == chatParticipantId && r.receiverId == userId)

/-- Optional beforeTimestamp condition of the history query: strictly
earlier than the supplied instant when one is supplied. -/
def beforeFilter (lastTimestamp : Option Int) (r : MessageRow) : Bool :=
  match lastTimestamp with
  | some t => r.timestamp < t
  | none => true

/-- Mirror of MessagesService.getChatHistory: find the messages matching
the participant pair and the optional timestamp bound, sort by timestamp
descending, and take at most limit rows. -/
def getChatHistory (userId chatParticipantId : String)
    (lastTimestamp : Option Int) (limit : Nat) (store : List MessageRow) :
    List MessageRow :=
  ((store.filter (fun r => chatBetween userId chatParticipantId r &&
      beforeFilter lastTimestamp r)).insertionSort histRel).take limit

theorem updateFirst_no_match {p : MessageRow → Bool} {l : List MessageRow}
    (h : ∀ r ∈ l, p r = false) (f : MessageRow → MessageRow) :
    updateFirst p f l = l := by
  induction l with
  | nil => rfl
  | cons r rs ih =>
    have hr : p r = false := h r (List.mem_cons_self r rs)
    simp only [updateFirst, hr, Bool.false_eq_true, if_false]
    rw [ih (fun x hx => h x (List.mem_cons_of_mem r hx))]

theorem deleteFirst_no_match {p : MessageRow → Bool} {l : List MessageRow}
    (h : ∀ r ∈ l, p r = false) : deleteFirst p l = l := by
  induction l with
  | nil => rfl
  | cons r rs ih =>
    have hr : p r = false := h r (List.mem_cons_self r rs)
    simp only [deleteFirst, hr, Bool.false_eq_true, if_false]
    rw [ih (fun x hx => h x (List.mem_cons_of_mem r hx))]


theorem deleteFirst_append_last {p : MessageRow → Bool} {l : List MessageRow}
    (h : ∀ r ∈ l, p r = false) {row : MessageRow} (hrow : p row = true) :
    deleteFirst p (l ++ [row]) = l := by
  induction l with
  | nil => simp [deleteFirst, hrow]
  | cons r rs ih =>
    have hr : p r = false := h r (List.mem_cons_self r rs)
    simp only [List.cons_append, deleteFirst, hr, Bool.false_eq_true, if_false]
    exact congrArg (List.cons r) (ih (fun x hx => h x (List.mem_cons_of_mem r hx)))

theorem mem_updateFirst {p : MessageRow → Bool} {f : MessageRow → MessageRow}
    {l : List MessageRow} {r' : MessageRow} (h : r' ∈ updateFirst p f l) :
    r' ∈ l ∨ ∃ r, r ∈ l ∧ p r = true ∧ r' = f r := by
  induction l with
  | nil => simp [updateFirst] at h
  | cons r rs ih =>
    simp only [updateFirst] at h
    by_cases hr : p r
    · rw [if_pos hr] at h
      rcases List.mem_cons.mp h with h1 | h1
      · exact Or.inr ⟨r, List.mem_cons_self r rs, hr, h1⟩
      · exact Or.inl (List.mem_cons_of_mem r h1)
    · rw [if_neg hr] at h
      rcases List.mem_cons.mp h with h1 | h1
      · exact Or.inl (h1 ▸ List.mem_cons_self r rs)
      · rcases ih h1 with h2 | ⟨x, hx, hpx, hfx⟩
        · exact Or.inl (List.mem_cons_of_mem r h2)
        · exact Or.inr ⟨x, List.mem_cons_of_mem r hx, hpx, hfx⟩

theorem sendMessage_eq_publish_fail_delete_ok (senderId receiverId content : String)
    (timestamp : Int) (newMid : String) (st : SendState) :
    ChatService.sendMessage senderId receiverId content timestamp newMid
        true false true st =
      (Except.error "publish failed",
        { store := MessagesService.deleteByMessageId newMid
            (st.store ++ [(MessagesService.createMessage senderId receiverId
              content timestamp newMid st.store).1]),
          queue := st.queue }) := rfl

theorem sendMessage_eq_publish_fail_delete_fail (senderId receiverId content : String)
    (timestamp : Int) (newMid : String) (st : SendState) :
    ChatService.sendMessage senderId receiverId content timestamp newMid
        true false false st =
      (Except.error "publish failed",
        { store := st.store ++ [(MessagesService.createMessage senderId receiverId
            content timestamp newMid st.store).1],
          queue := st.queue }) := rfl

/-- C1: when the store create succeeds and the queue publish fails, the
send path (ChatService.sendMessage) deletes the created row by its
messageId and re-raises, so that no row for the fresh messageId remains
in the store and nothing was enqueued; when the compensating delete
itself also fails, the error is still re-raised (only logged) with the
queue untouched. -/
theorem sendMessage_publish_failure_compensates
    (senderId receiverId content : String) (timestamp : Int) (newMid : String)
    (st : SendState) (hfresh : ∀ r ∈ st.store, r.messageId ≠ newMid) :
    (ChatService.sendMessage senderId receiverId content timestamp newMid
        true false true st).1 = Except.error "publish failed" ∧
    (∀ r ∈ (ChatService.sendMessage senderId receiverId content timestamp
        newMid true false true st).2.store, r.messageId ≠ newMid) ∧
    (ChatService.sendMessage senderId receiverId content timestamp newMid
        true false true st).2.store = st.store ∧
    (ChatService.sendMessage senderId receiverId content timestamp newMid
        true false true st).2.queue = st.queue ∧
    (ChatService.sendMessage senderId receiverId content timestamp newMid
        true false false st).1 = Except.error "publish failed" ∧
    (ChatService.sendMessage senderId receiverId content timestamp newMid
        true false false st).2.queue = st.queue := by
  have hstore : MessagesService.deleteByMessageId newMid
      (st.store ++ [(MessagesService.createMessage senderId receiverId content
        timestamp newMid st.store).1]) = st.store := by
    unfold MessagesService.deleteByMessageId
    apply deleteFirst_append_last
    · intro r hr
      exact beq_eq_false_iff_ne.mpr (hfresh r hr)
    · simp [MessagesService.createMessage]
  rw [sendMessage_eq_publish_fail_delete_ok, sendMessage_eq_publish_fail_delete_fail]
  refine ⟨rfl, ?_, hstore, rfl, rfl, rfl⟩
  intro r hr
  simp only [hstore] at hr
  exact hfresh r hr

/-- C1 witness: a concrete failed send from which the compensator removes
the created row. -/
theorem sendMessage_publish_failure_compensates_witness :
    (ChatService.sendMessage "alice" "bob" "hello" 1700000000000 "m1"
        true false true { store := [], queue := [] }).1 =
      Except.error "publish failed" ∧
    (ChatService.sendMessage "alice" "bob" "hello" 1700000000000 "m1"
        true false true { store := [], queue := [] }).2.store = [] := by
  have h := sendMessage_publish_failure_compensates "alice" "bob" "hello"
    1700000000000 "m1" { store := [], queue := [] } (by intro r hr; simp at hr)
  exact ⟨h.1, h.2.2.1⟩

theorem markMessageAsDelivered_eq_remove_fail_rollback_ok
    (userId messageId : String) (now : Int) (st : ChatService.AckState) :
    ChatService.markMessageAsDelivered userId messageId now true false true st =
      (Except.error "remove failed",
        { store := MessagesService.markAsUndelivered messageId
            (MessagesService.markAsDelivered messageId now st.store),
          inbox := st.inbox }) := rfl

theorem updateFirst_cons_pos {p : MessageRow → Bool} {f : MessageRow → MessageRow}
    {x : MessageRow} {xs : List MessageRow} (h : p x = true) :
    updateFirst p f (x :: xs) = f x :: xs := by
  simp [updateFirst, h]

theorem updateFirst_cons_neg {p : MessageRow → Bool} {f : MessageRow → MessageRow}
    {x : MessageRow} {xs : List MessageRow} (h : p x = false) :
    updateFirst p f (x :: xs) = x :: updateFirst p f xs := by
  simp [updateFirst, h]

theorem markUndelivered_after_markDelivered {messageId : String} {now : Int}
    {l : List MessageRow} (hnodup : (l.map MessageRow.messageId).Nodup) :
    ∀ r ∈ MessagesService.markAsUndelivered messageId
        (MessagesService.markAsDelivered messageId now l),
      r.messageId = messageId → r.undelivered = true ∧ r.deliveredAt = none := by
  unfold MessagesService.markAsUndelivered MessagesService.markAsDelivered
  induction l with
  | nil =>
    intro r hr
    simp [updateFirst] at hr
  | cons x xs ih =>
    have hxs : (xs.map MessageRow.messageId).Nodup := (List.nodup_cons.mp hnodup).2
    have hxnot : x.messageId ∉ xs.map MessageRow.messageId :=
      (List.nodup_cons.mp hnodup).1
    intro r hr hrid
    by_cases hx : x.messageId = messageId
    · have hb : (x.messageId == messageId) = true := beq_iff_eq.mpr hx
      rw [updateFirst_cons_pos hb, updateFirst_cons_pos hb] at hr
      rcases List.mem_cons.mp hr with h1 | h1
      · rw [h1]
        exact ⟨rfl, rfl⟩
      · exfalso
        apply hxnot
        rw [hx, ← hrid]
        exact List.mem_map_of_mem MessageRow.messageId h1
    · have hb : (x.messageId == messageId) = false := beq_eq_false_iff_ne.mpr hx
      rw [updateFirst_cons_neg hb, updateFirst_cons_neg hb] at hr
      rcases List.mem_cons.mp hr with h1 | h1
      · exact absurd (h1 ▸ hrid) hx
      · exact ih hxs r h1 hrid

/-- C2: when marking delivered succeeds and the inbox removal raises, the
acknowledgment path (ChatService.markMessageAsDelivered) reverts the row
to undelivered before re-raising: the row for the messageId ends with
undelivered true and no deliveredAt, and the inbox is untouched. The
store is assumed duplicate-free on messageId (unique index). -/
theorem markMessageAsDelivered_remove_failure_rolls_back
    (userId messageId : String) (now : Int) (st : ChatService.AckState)
    (hnodup : (st.store.map MessageRow.messageId).Nodup) :
    (ChatService.markMessageAsDelivered userId messageId now
        true false true st).1 = Except.error "remove failed" ∧
    (∀ r ∈ (ChatService.markMessageAsDelivered userId messageId now
        true false true st).2.store,
      r.messageId = messageId → r.undelivered = true ∧ r.deliveredAt = none) ∧
    (ChatService.markMessageAsDelivered userId messageId now
        true false true st).2.inbox = st.inbox := by
  rw [markMessageAsDelivered_eq_remove_fail_rollback_ok]
  exact ⟨rfl, markUndelivered_after_markDelivered hnodup, rfl⟩

/-- Concrete row used by witnesses. -/
def demoRow : MessageRow :=
  { messageId := "m1", senderId := "alice", receiverId := "bob",
    content := "hi", timestamp := 1700000000000, undelivered := true,
    deliveredAt := none, readAt := none }

/-- Concrete acknowledgment state used by witnesses. -/
def demoAckState : ChatService.AckState :=
  { store := [demoRow], inbox := [("bob", "m1")] }

/-- C2 witness: a concrete acknowledgment whose inbox removal fails and
whose row is rolled back to undelivered. -/
theorem markMessageAsDelivered_remove_failure_rolls_back_witness :
    (ChatService.markMessageAsDelivered "bob" "m1" 1700000000500
        true false true demoAckState).1 = Except.error "remove failed" ∧
    demoRow.undelivered = true ∧ demoRow.deliveredAt = none := by
  have h := markMessageAsDelivered_remove_failure_rolls_back "bob" "m1"
    1700000000500 demoAckState (by decide)
  exact ⟨h.1, h.2.1 demoRow (by decide) (by decide)⟩

/-- C3: the row invariant (undelivered true exactly when deliveredAt is
absent) is preserved by each core lifecycle store operation: creation,
marking delivered, and marking undelivered. -/
theorem storeInv_preserved_by_lifecycle (store : List MessageRow)
    (h : ∀ r ∈ store, rowInv r) :
    (∀ senderId receiverId content timestamp newMid,
      ∀ r ∈ (MessagesService.createMessage senderId receiverId content
        timestamp newMid store).2, rowInv r) ∧
    (∀ messageId now,
      ∀ r ∈ MessagesService.markAsDelivered messageId now store, rowInv r) ∧
    (∀ messageId,
      ∀ r ∈ MessagesService.markAsUndelivered messageId store, rowInv r) := by
  refine ⟨?_, ?_, ?_⟩
  · intro senderId receiverId content timestamp newMid r hr
    simp only [MessagesService.createMessage, List.mem_append,
      List.mem_singleton] at hr
    rcases hr with hr | hr
    · exact h r hr
    · rw [hr]
      exact ⟨fun _ => rfl, fun _ => rfl⟩
  · intro messageId now r hr
    rcases mem_updateFirst hr with h1 | ⟨x, _, _, hfx⟩
    · exact h r h1
    · rw [hfx]
      constructor
      · intro hc
        exact absurd hc (by simp)
      · intro hc
        exact absurd hc (by simp)
  · intro messageId r hr
    rcases mem_updateFirst hr with h1 | ⟨x, _, _, hfx⟩
    · exact h r h1
    · rw [hfx]
      exact ⟨fun _ => rfl, fun _ => rfl⟩

/-- Concrete delivered row used by the C3 witness: demoRow after the
markAsDelivered update. -/
def demoRowDelivered : MessageRow :=
  { demoRow with undelivered := false, deliveredAt := some 1700000000500 }

/-- C3 witness: the invariant holds for the row produced by a concrete
markAsDelivered on an invariant-satisfying store. -/
theorem storeInv_preserved_by_lifecycle_witness : rowInv demoRowDelivered := by
  have h := storeInv_preserved_by_lifecycle [demoRow]
    (by intro r hr; simp only [List.mem_singleton] at hr; rw [hr]; decide)
  exact h.2.1 "m1" 1700000000500 demoRowDelivered (by decide)

/-- C10: on a messageId with no matching row, markAsDelivered and
markAsUndelivered are no-ops that raise nothing (updateOne matches zero
documents), and the full acknowledgment path completes successfully with
the store unchanged: an acknowledgment for an unknown or already-deleted
messageId is a silent no-op. -/
theorem markDelivered_missing_is_noop (userId messageId : String) (now : Int)
    (st : ChatService.AckState)
    (habs : ∀ r ∈ st.store, r.messageId ≠ messageId) :
    MessagesService.markAsDelivered messageId now st.store = st.store ∧
    MessagesService.markAsUndelivered messageId st.store = st.store ∧
    (ChatService.markMessageAsDelivered userId messageId now
        true true true st).1 = Except.ok () ∧
    (ChatService.markMessageAsDelivered userId messageId now
        true true true st).2.store = st.store := by
  have hminus : ∀ r ∈ st.store, (r.messageId == messageId) = false :=
    fun r hr => beq_eq_false_iff_ne.mpr (habs r hr)
  have h1 : MessagesService.markAsDelivered messageId now st.store = st.store :=
    updateFirst_no_match hminus _
  have h2 : MessagesService.markAsUndelivered messageId st.store = st.store :=
    updateFirst_no_match hminus _
  refine ⟨h1, h2, ?_, ?_⟩
  · rfl
  · show MessagesService.markAsDelivered messageId now st.store = st.store
    exact h1

/-- C10 witness: acknowledging an unknown messageId on a concrete store
succeeds and changes nothing. -/
theorem markDelivered_missing_is_noop_witness :
    (ChatService.markMessageAsDelivered "bob" "unknown-mid" 1700000000500
        true true true demoAckState).1 = Except.ok () ∧
    (ChatService.markMessageAsDelivered "bob" "unknown-mid" 1700000000500
        true true true demoAckState).2.store = demoAckState.store := by
  have h := markDelivered_missing_is_noop "bob" "unknown-mid" 1700000000500
    demoAckState (by decide)
  exact ⟨h.2.2.1, h.2.2.2⟩

/-- C4: a send_message event on a socket with no bound user is dropped
silently by ChatGateway.handleSendMessage: the handler returns without
emitting any event (in particular no error event) and performs no store
write. This documents the divergence from the spec and the repository's
own gateway test, which expect an error emit. -/
theorem handleSendMessage_unauthenticated_is_silent :
    ChatGateway.handleSendMessage ConnectionManager.empty "socket-123"
      { receiver_id := "user-2", content := "Hello",
        message_id_by_client := some 1, timestamp := 1700000000000 }
      "m1" true true true { store := [], queue := [] } =
    ([], { store := [], queue := [] }) := rfl

/-- C8: when the cached presence flag reads online but the receiver has no
local socket binding, the dispatcher falls back to the offline deposit:
the messageId is appended to the inbox of the receiver, the handler
completes without raising, and the queue item is acked. -/
theorem consumer_stale_presence_deposits (cm : ConnectionManager)
    (p : QueuePayload) (st : DispatcherState)
    (hnosock : ConnectionManager.getSocketId p.receiverId cm = none) :
    QueueConsumer.handleMessage true cm p st =
      Except.ok (QueueConsumer.addToOfflineInbox p.receiverId p.messageId p st) ∧
    (QueueConsumer.addToOfflineInbox p.receiverId p.messageId p st).inbox =
      st.inbox ++ [(p.receiverId, p.messageId)] ∧
    consumerAck (QueueConsumer.handleMessage true cm p st) = true := by
  have hsend : ChatGateway.sendMessageToUser cm p.receiverId = false := by
    unfold ChatGateway.sendMessageToUser
    rw [hnosock]
    rfl
  refine ⟨?_, rfl, ?_⟩
  · unfold QueueConsumer.handleMessage
    rw [hsend]
    rfl
  · unfold consumerAck QueueConsumer.handleMessage
    rw [hsend]
    rfl

/-- Concrete queue payload used by witnesses. -/
def demoPayload : QueuePayload :=
  { messageId := "m1", senderId := "alice", receiverId := "bob",
    content := "hi", timestamp := 1700000000000 }

/-- C8 witness: a concrete stale-presence dispatch deposits into the
inbox and acks. -/
theorem consumer_stale_presence_deposits_witness :
    QueueConsumer.handleMessage true ConnectionManager.empty demoPayload
      { inbox := [], msgCache := [] } =
      Except.ok (QueueConsumer.addToOfflineInbox "bob" "m1" demoPayload
        { inbox := [], msgCache := [] }) ∧
    consumerAck (QueueConsumer.handleMessage true ConnectionManager.empty
      demoPayload { inbox := [], msgCache := [] }) = true := by
  have h := consumer_stale_presence_deposits ConnectionManager.empty
    demoPayload { inbox := [], msgCache := [] } (by decide)
  exact ⟨h.1, h.2.2⟩

/-- String of n copies of the letter a, for the boundary-length payloads. -/
def contentOfLen (n : Nat) : String := String.mk (List.replicate n 'a')

/-- Inbound payload with content of the given length, used for the
validation boundary checks. -/
def dtoWithContent (c : String) : SendMessageDto :=
  { receiver_id := "user-2", content := c, message_id_by_client := some 1,
    timestamp := 1700000000000 }

set_option maxRecDepth 8000 in
/-- C9: content of length exactly 1000 passes the validation pipe, content
of length 1001 and empty content are rejected as validation errors, and a
rejected send_message event performs no store write: the event pipeline
returns the state unchanged. -/
theorem sendMessage_content_validation_boundaries :
    validSendMessageDto (dtoWithContent (contentOfLen 1000)) = true ∧
    validSendMessageDto (dtoWithContent (contentOfLen 1001)) = false ∧
    validSendMessageDto (dtoWithContent "") = false ∧
    (∀ cm socketId newMid createOk publishOk deleteOk st,
      ChatGateway.handleSendMessageEvent cm socketId
        (dtoWithContent (contentOfLen 1001)) newMid createOk publishOk
        deleteOk st = (Except.error (), st)) ∧
    (∀ cm socketId newMid createOk publishOk deleteOk st,
      ChatGateway.handleSendMessageEvent cm socketId (dtoWithContent "")
        newMid createOk publishOk deleteOk st = (Except.error (), st)) := by
  have h1001 : validSendMessageDto (dtoWithContent (contentOfLen 1001)) = false := by
    decide
  have hempty : validSendMessageDto (dtoWithContent "") = false := by
    decide
  refine ⟨by decide, h1001, hempty, ?_, ?_⟩
  · intro cm socketId newMid createOk publishOk deleteOk st
    unfold ChatGateway.handleSendMessageEvent
    rw [h1001]
    rfl
  · intro cm socketId newMid createOk publishOk deleteOk st
    unfold ChatGateway.handleSendMessageEvent
    rw [hempty]
    rfl

theorem addConnection_userSocketMap (u s : String) (cm : ConnectionManager) :
    (ConnectionManager.addConnection u s cm).userSocketMap =
      amSet u s cm.userSocketMap := by
  unfold ConnectionManager.addConnection
  cases amGet u cm.userSocketMap <;> rfl

theorem addConnection_socketUserMap_of_some {u old : String}
    {cm : ConnectionManager} (s : String)
    (h : amGet u cm.userSocketMap = some old) :
    (ConnectionManager.addConnection u s cm).socketUserMap =
      amSet s u (amDelete old cm.socketUserMap) := by
  unfold ConnectionManager.addConnection
  rw [h]

theorem addConnection_socketUserMap_of_none {u : String}
    {cm : ConnectionManager} (s : String)
    (h : amGet u cm.userSocketMap = none) :
    (ConnectionManager.addConnection u s cm).socketUserMap =
      amSet s u cm.socketUserMap := by
  unfold ConnectionManager.addConnection
  rw [h]

/-- C7: re-adding a user with a new socket evicts the old binding from
both directions: after addConnection of h1 then h2 for the same user, the
user maps to h2 and the old socket h1 is absent from the socket-to-user
map. -/
theorem addConnection_replaces_old_binding (cm : ConnectionManager)
    (u h1 h2 : String) (hne : h1 ≠ h2) :
    ConnectionManager.getSocketId u
      (ConnectionManager.addConnection u h2
        (ConnectionManager.addConnection u h1 cm)) = some h2 ∧
    ConnectionManager.getUserId h1
      (ConnectionManager.addConnection u h2
        (ConnectionManager.addConnection u h1 cm)) = none := by
  have hA1 : amGet u (ConnectionManager.addConnection u h1 cm).userSocketMap =
      some h1 := by
    rw [addConnection_userSocketMap]
    exact amGet_amSet_self u h1 cm.userSocketMap
  constructor
  · unfold ConnectionManager.getSocketId
    rw [addConnection_userSocketMap]
    exact amGet_amSet_self u h2 _
  · unfold ConnectionManager.getUserId
    rw [addConnection_socketUserMap_of_some h2 hA1]
    rw [amGet_amSet_ne hne]
    exact amGet_amDelete_self h1 _

/-- C7 witness: a concrete reconnect replaces the binding and clears the
old socket entry. -/
theorem addConnection_replaces_old_binding_witness :
    ConnectionManager.getSocketId "u1"
      (ConnectionManager.addConnection "u1" "s2"
        (ConnectionManager.addConnection "u1" "s1"
          ConnectionManager.empty)) = some "s2" ∧
    ConnectionManager.getUserId "s1"
      (ConnectionManager.addConnection "u1" "s2"
        (ConnectionManager.addConnection "u1" "s1"
          ConnectionManager.empty)) = none :=
  addConnection_replaces_old_binding ConnectionManager.empty "u1" "s1" "s2"
    (by decide)

theorem removeConnection_of_none {u : String} {cm : ConnectionManager}
    (h : amGet u cm.userSocketMap = none) :
    ConnectionManager.removeConnection u cm = cm := by
  unfold ConnectionManager.removeConnection
  rw [h]

theorem removeConnection_userSocketMap_of_some {u s0 : String}
    {cm : ConnectionManager} (h : amGet u cm.userSocketMap = some s0) :
    (ConnectionManager.removeConnection u cm).userSocketMap =
      amDelete u cm.userSocketMap := by
  unfold ConnectionManager.removeConnection
  rw [h]

theorem removeConnection_socketUserMap_of_some {u s0 : String}
    {cm : ConnectionManager} (h : amGet u cm.userSocketMap = some s0) :
    (ConnectionManager.removeConnection u cm).socketUserMap =
      amDelete s0 cm.socketUserMap := by
  unfold ConnectionManager.removeConnection
  rw [h]

theorem registryInv_empty : registryInv ConnectionManager.empty := by
  unfold registryInv ConnectionManager.empty
  constructor
  · intro u s hx
    exact Option.noConfusion hx
  · intro s u hx
    exact Option.noConfusion hx

theorem registryInv_addConnection {cm : ConnectionManager}
    (h : registryInv cm) {u s : String}
    (hg : amGet s cm.socketUserMap = none ∨ amGet s cm.socketUserMap = some u) :
    registryInv (ConnectionManager.addConnection u s cm) := by
  unfold registryInv at h ⊢
  obtain ⟨hf, hb⟩ := h
  cases hU : amGet u cm.userSocketMap with
  | some old =>
    have hSold : amGet old cm.socketUserMap = some u := hf u old hU
    constructor
    · intro u' s' h1
      rw [addConnection_userSocketMap] at h1
      rw [addConnection_socketUserMap_of_some s hU]
      by_cases hu : u' = u
      · subst hu
        rw [amGet_amSet_self] at h1
        injection h1 with h1
        subst h1
        rw [amGet_amSet_self]
      · rw [amGet_amSet_ne hu] at h1
        have hS : amGet s' cm.socketUserMap = some u' := hf u' s' h1
        have hss : s' ≠ s := by
          intro he
          subst he
          rcases hg with hg | hg
          · rw [hg] at hS
            exact Option.noConfusion hS
          · rw [hg] at hS
            injection hS with he2
            exact hu he2.symm
        rw [amGet_amSet_ne hss]
        have hsold : s' ≠ old := by
          intro he
          subst he
          rw [hSold] at hS
          injection hS with he2
          exact hu he2.symm
        rw [amGet_amDelete_ne hsold]
        exact hS
    · intro s' u' h2
      rw [addConnection_socketUserMap_of_some s hU] at h2
      rw [addConnection_userSocketMap]
      by_cases hs : s' = s
      · subst hs
        rw [amGet_amSet_self] at h2
        injection h2 with h2
        subst h2
        rw [amGet_amSet_self]
      · rw [amGet_amSet_ne hs] at h2
        have hsold : s' ≠ old := by
          intro he
          subst he
          rw [amGet_amDelete_self] at h2
          exact Option.noConfusion h2
        rw [amGet_amDelete_ne hsold] at h2
        have hUu : amGet u' cm.userSocketMap = some s' := hb s' u' h2
        have huu : u' ≠ u := by
          intro he
          subst he
          rw [hU] at hUu
          injection hUu with he2
          exact hsold he2.symm
        rw [amGet_amSet_ne huu]
        exact hUu
  | none =>
    constructor
    · intro u' s' h1
      rw [addConnection_userSocketMap] at h1
      rw [addConnection_socketUserMap_of_none s hU]
      by_cases hu : u' = u
      · subst hu
        rw [amGet_amSet_self] at h1
        injection h1 with h1
        subst h1
        rw [amGet_amSet_self]
      · rw [amGet_amSet_ne hu] at h1
        have hS : amGet s' cm.socketUserMap = some u' := hf u' s' h1
        have hss : s' ≠ s := by
          intro he
          subst he
          rcases hg with hg | hg
          · rw [hg] at hS
            exact Option.noConfusion hS
          · rw [hg] at hS
            injection hS with he2
            exact hu he2.symm
        rw [amGet_amSet_ne hss]
        exact hS
    · intro s' u' h2
      rw [addConnection_socketUserMap_of_none s hU] at h2
      rw [addConnection_userSocketMap]
      by_cases hs : s' = s
      · subst hs
        rw [amGet_amSet_self] at h2
        injection h2 with h2
        subst h2
        rw [amGet_amSet_self]
      · rw [amGet_amSet_ne hs] at h2
        have hUu : amGet u' cm.userSocketMap = some s' := hb s' u' h2
        have huu : u' ≠ u := by
          intro he
          subst he
          rw [hU] at hUu
          exact Option.noConfusion hUu
        rw [amGet_amSet_ne huu]
        exact hUu

theorem registryInv_removeConnection {cm : ConnectionManager}
    (h : registryInv cm) (u : String) :
    registryInv (ConnectionManager.removeConnection u cm) := by
  unfold registryInv at h ⊢
  obtain ⟨hf, hb⟩ := h
  cases hU : amGet u cm.userSocketMap with
  | none =>
    rw [removeConnection_of_none hU]
    exact ⟨hf, hb⟩
  | some s0 =>
    have hS0 : amGet s0 cm.socketUserMap = some u := hf u s0 hU
    constructor
    · intro u' s' h1
      rw [removeConnection_userSocketMap_of_some hU] at h1
      rw [removeConnection_socketUserMap_of_some hU]
      have huu : u' ≠ u := by
        intro he
        subst he
        rw [amGet_amDelete_self] at h1
        exact Option.noConfusion h1
      rw [amGet_amDelete_ne huu] at h1
      have hS : amGet s' cm.socketUserMap = some u' := hf u' s' h1
      have hss : s' ≠ s0 := by
        intro he
        subst he
        rw [hS0] at hS
        injection hS with he2
        exact huu he2.symm
      rw [amGet_amDelete_ne hss]
      exact hS
    · intro s' u' h2
      rw [removeConnection_socketUserMap_of_some hU] at h2
      rw [removeConnection_userSocketMap_of_some hU]
      have hss : s' ≠ s0 := by
        intro he
        subst he
        rw [amGet_amDelete_self] at h2
        exact Option.noConfusion h2
      rw [amGet_amDelete_ne hss] at h2
      have hUu : amGet u' cm.userSocketMap = some s' := hb s' u' h2
      have huu : u' ≠ u := by
        intro he
        subst he
        rw [hU] at hUu
        injection hUu with he2
        exact hss he2.symm
      rw [amGet_amDelete_ne huu]
      exact hUu

theorem registryInv_foldl (ops : List RegOp) :
    ∀ cm : ConnectionManager, registryInv cm →
      goodRegOpsFrom cm ops = true →
      registryInv (ops.foldl applyRegOp cm) := by
  induction ops with
  | nil =>
    intro cm h _
    exact h
  | cons op rest ih =>
    intro cm h hg
    rw [goodRegOpsFrom, Bool.and_eq_true] at hg
    obtain ⟨hop, hrest⟩ := hg
    rw [List.foldl_cons]
    apply ih _ _ hrest
    cases op with
    | add u s =>
      show registryInv (ConnectionManager.addConnection u s cm)
      have hop2 : (match amGet s cm.socketUserMap with
          | none => true
          | some u' => u' == u) = true := hop
      apply registryInv_addConnection h
      cases hS : amGet s cm.socketUserMap with
      | none => exact Or.inl rfl
      | some u' =>
        rw [hS] at hop2
        simp only at hop2
        exact Or.inr (by rw [beq_iff_eq.mp hop2])
    | remove u =>
      exact registryInv_removeConnection h u
    | clear =>
      exact registryInv_empty

theorem userKeys_nodup_foldl (ops : List RegOp) :
    ∀ cm : ConnectionManager, (cm.userSocketMap.map Prod.fst).Nodup →
      (((ops.foldl applyRegOp cm).userSocketMap).map Prod.fst).Nodup := by
  induction ops with
  | nil =>
    intro cm h
    exact h
  | cons op rest ih =>
    intro cm h
    rw [List.foldl_cons]
    apply ih
    cases op with
    | add u s =>
      rw [show (applyRegOp cm (RegOp.add u s)).userSocketMap =
          amSet u s cm.userSocketMap from addConnection_userSocketMap u s cm]
      exact keys_nodup_amSet u s h
    | remove u =>
      cases hU : amGet u cm.userSocketMap with
      | none =>
        rw [show applyRegOp cm (RegOp.remove u) = cm from
          removeConnection_of_none hU]
        exact h
      | some s0 =>
        rw [show (applyRegOp cm (RegOp.remove u)).userSocketMap =
            amDelete u cm.userSocketMap from
          removeConnection_userSocketMap_of_some hU]
        exact keys_nodup_amDelete u h
    | clear =>
      simp [applyRegOp, ConnectionManager.clearAll, ConnectionManager.empty]

/-- C6 (amended): after every sequence of registry operations from the
empty registry, each user has at most one socket binding (the keys of the
user-to-socket map are duplicate-free); and for sequences in which no
addConnection reuses a socketId currently bound to a different user, the
two maps are mutual inverses in both directions. -/
theorem connectionRegistry_maps_are_inverse (ops : List RegOp) :
    ((runRegOps ops).userSocketMap.map Prod.fst).Nodup ∧
    (goodRegOpsFrom ConnectionManager.empty ops = true →
      registryInv (runRegOps ops)) := by
  constructor
  · exact userKeys_nodup_foldl ops ConnectionManager.empty (by simp [ConnectionManager.empty])
  · intro hg
    exact registryInv_foldl ops ConnectionManager.empty registryInv_empty hg

/-- Concrete good operation sequence used by the C6 witness. -/
def demoGoodOps : List RegOp :=
  [RegOp.add "u1" "s1", RegOp.add "u1" "s2", RegOp.remove "u1",
    RegOp.add "u2" "s3"]

/-- C6 witness: after a concrete good sequence the key set is
duplicate-free and the inverse invariant yields the concrete reverse
lookup. -/
theorem connectionRegistry_maps_are_inverse_witness :
    ((runRegOps demoGoodOps).userSocketMap.map Prod.fst).Nodup ∧
    amGet "s3" (runRegOps demoGoodOps).socketUserMap = some "u2" := by
  have h := connectionRegistry_maps_are_inverse demoGoodOps
  have hinv : (∀ u s, amGet u (runRegOps demoGoodOps).userSocketMap = some s →
      amGet s (runRegOps demoGoodOps).socketUserMap = some u) ∧
      (∀ s u, amGet s (runRegOps demoGoodOps).socketUserMap = some u →
        amGet u (runRegOps demoGoodOps).userSocketMap = some s) :=
    h.2 (by decide)
  exact ⟨h.1, hinv.1 "u2" "s3" (by decide)⟩

/-- Sequence violating the literal claim: two users add the same socket
id. -/
def regCollisionOps : List RegOp :=
  [RegOp.add "u1" "s1", RegOp.add "u2" "s1"]

/-- C6 counterexample: after the collision sequence the user-to-socket
map still holds the pair of u1 and s1, yet the socket-to-user map sends
s1 to u2, so the claimed inverse property of the two maps fails for this
sequence of operations. -/
theorem connectionRegistry_maps_are_inverse_counterexample :
    amGet "u1" (runRegOps regCollisionOps).userSocketMap = some "s1" ∧
    amGet "s1" (runRegOps regCollisionOps).socketUserMap = some "u2" ∧
    ¬ registryInv (runRegOps regCollisionOps) := by
  refine ⟨by decide, by decide, ?_⟩
  intro h
  have h1 := h.1 "u1" "s1" (by decide)
  have h2 : amGet "s1" (runRegOps regCollisionOps).socketUserMap =
      some "u2" := by decide
  rw [h1] at h2
  have : ("u1" : String) = "u2" := Option.some.inj h2
  exact absurd this (by decide)

/-- C5: every chat history result contains only messages exchanged
between the two users, is sorted by timestamp descending, holds at most
50 messages when the requested limit is at most 50, and respects a
supplied beforeTimestamp strictly. -/
theorem getChatHistory_spec (a b : String) (lastTimestamp : Option Int)
    (limit : Nat) (store : List MessageRow) (hlim : limit ≤ 50) :
    (∀ m ∈ getChatHistory a b lastTimestamp limit store,
      m ∈ store ∧ chatBetween a b m = true) ∧
    List.Sorted histRel (getChatHistory a b lastTimestamp limit store) ∧
    (getChatHistory a b lastTimestamp limit store).length ≤ 50 ∧
    (∀ t, lastTimestamp = some t →
      ∀ m ∈ getChatHistory a b lastTimestamp limit store,
        m.timestamp < t) := by
  have hmem : ∀ m ∈ getChatHistory a b lastTimestamp limit store,
      m ∈ store ∧
        (chatBetween a b m && beforeFilter lastTimestamp m) = true := by
    intro m hm
    unfold getChatHistory at hm
    have h1 := (List.take_sublist limit _).subset hm
    have h2 := (List.perm_insertionSort histRel _).mem_iff.mp h1
    exact List.mem_filter.mp h2
  refine ⟨?_, ?_, ?_, ?_⟩
  · intro m hm
    obtain ⟨h1, h2⟩ := hmem m hm
    have h3 : chatBetween a b m = true ∧
        beforeFilter lastTimestamp m = true := by simpa using h2
    exact ⟨h1, h3.1⟩
  · unfold getChatHistory
    have hp : List.Pairwise histRel
        ((store.filter (fun r => chatBetween a b r &&
          beforeFilter lastTimestamp r)).insertionSort histRel) :=
      List.sorted_insertionSort histRel _
    exact hp.sublist (List.take_sublist limit _)
  · unfold getChatHistory
    rw [List.length_take]
    exact le_trans (min_le_left _ _) hlim
  · intro t ht m hm
    obtain ⟨h1, h2⟩ := hmem m hm
    have h3 : chatBetween a b m = true ∧
        beforeFilter lastTimestamp m = true := by simpa using h2
    have h4 := h3.2
    rw [ht] at h4
    simpa [beforeFilter] using h4

/-- C5 witness: the history properties at a concrete store and query,
instantiated at the one concrete result row. -/
theorem getChatHistory_spec_witness :
    (demoRow ∈ [demoRow] ∧ chatBetween "alice" "bob" demoRow = true) ∧
    List.Sorted histRel
      (getChatHistory "alice" "bob" (some 1700000000999) 50 [demoRow]) ∧
    (getChatHistory "alice" "bob" (some 1700000000999) 50 [demoRow]).length
      ≤ 50 ∧
    demoRow.timestamp < 1700000000999 := by
  have h := getChatHistory_spec "alice" "bob" (some 1700000000999) 50
    [demoRow] (by decide)
  have hmem : demoRow ∈ getChatHistory "alice" "bob" (some 1700000000999) 50
      [demoRow] := by decide
  exact ⟨h.1 demoRow hmem, h.2.1, h.2.2.1,
    h.2.2.2 1700000000999 rfl demoRow hmem⟩
